import Mathlib

/-!
Verification of the CBC chain-explorer bootstrap core
(`internal/cbc/cbc_init.go`, `internal/service/service.go`, and the CBC
types file containing `convertWSToHTTP`).

Strings are embedded as `List Char`; the Go `strings` package operations
used by the source (`HasPrefix`, `HasSuffix`, `Contains`, `Replace` with
count 1, `ToLower`) are reproduced below with Go argument order.
The external collaborators (dao, HTTP transport, JSON unmarshalling) are
embedded as explicit environments: each RPC attempt's combined
call-and-decode outcome is an oracle value, and the dao's two write
operations are state transformers supplied by the environment.
-/

namespace Cbc

/-- Go `strings.HasPrefix s pre`. -/
def strHasPre : List Char → List Char → Bool
  | _, [] => true
  | [], _ :: _ => false
  | c :: cs, p :: ps => p == c && strHasPre cs ps

/-- Go `strings.HasSuffix s suf` (via reversal). -/
def strHasSuf (s suf : List Char) : Bool :=
  strHasPre s.reverse suf.reverse

/-- Go `strings.Contains s sub`. -/
def strContains : List Char → List Char → Bool
  | [], sub => strHasPre [] sub
  | c :: cs, sub => strHasPre (c :: cs) sub || strContains cs sub

/-- Go `strings.Replace s old new 1`: replace the first occurrence of
`old` in `s` (the two call sites use the non-empty patterns
`"ws://"` and `"wss://"`). -/
def replaceFirstOcc : List Char → List Char → List Char → List Char
  | [], _, _ => []
  | c :: cs, old, new =>
    if strHasPre (c :: cs) old then new ++ (c :: cs).drop old.length
    else c :: replaceFirstOcc cs old new

/-- ASCII lowering of one character, as Go `strings.ToLower` acts on the
ASCII network identifiers used by the service configuration. -/
def toLowerChar (c : Char) : Char :=
  if 'A' ≤ c ∧ c ≤ 'Z' then Char.ofNat (c.toNat + 32) else c

/-- Go `strings.ToLower` on ASCII strings. -/
def toLowerGo (s : List Char) : List Char :=
  s.map toLowerChar

/-- The `httpURL` computed in `NewCBCInitializer` (cbc_init.go lines
29-30): two successive first-occurrence substring replacements. -/
def newInitializerHttpURL (wsEndpoint : List Char) : List Char :=
  replaceFirstOcc (replaceFirstOcc wsEndpoint "ws://".data "http://".data)
    "wss://".data "https://".data

/-- `convertWSToHTTP` from the CBC types file: length-guarded leading
scheme test and scheme replacement. -/
def convertWSToHTTP (wsEndpoint : List Char) : List Char :=
  if 5 < wsEndpoint.length ∧ strHasPre wsEndpoint "ws://".data then
    "http://".data ++ wsEndpoint.drop 5
  else if 6 < wsEndpoint.length ∧ strHasPre wsEndpoint "wss://".data then
    "https://".data ++ wsEndpoint.drop 6
  else wsEndpoint

theorem strHasPre_iff_append (p : List Char) :
    ∀ s : List Char, strHasPre s p = true ↔ ∃ t, s = p ++ t := by
  induction p with
  | nil =>
    intro s
    simp [strHasPre]
  | cons x xs ih =>
    intro s
    cases s with
    | nil =>
      simp [strHasPre]
    | cons c cs =>
      constructor
      · intro h
        simp only [strHasPre, Bool.and_eq_true, beq_iff_eq] at h
        obtain ⟨t, ht⟩ := (ih cs).mp h.2
        exact ⟨t, by simp [h.1, ht]⟩
      · rintro ⟨t, ht⟩
        simp only [List.cons_append, List.cons.injEq] at ht
        simp only [strHasPre, Bool.and_eq_true, beq_iff_eq]
        exact ⟨ht.1.symm, (ih cs).mpr ⟨t, ht.2⟩⟩

theorem strHasSuf_iff_append (s suf : List Char) :
    strHasSuf s suf = true ↔ ∃ p, s = p ++ suf := by
  unfold strHasSuf
  rw [strHasPre_iff_append]
  constructor
  · rintro ⟨t, ht⟩
    refine ⟨t.reverse, ?_⟩
    have := congrArg List.reverse ht
    simpa using this
  · rintro ⟨p, hp⟩
    exact ⟨p.reverse, by simp [hp]⟩

theorem strContains_of_strHasPre {s sub : List Char}
    (h : strHasPre s sub = true) : strContains s sub = true := by
  cases s with
  | nil => simpa [strContains] using h
  | cons c cs => simp [strContains, h]

theorem replaceFirstOcc_of_not_contains {s old : List Char} (new : List Char)
    (h : strContains s old = false) : replaceFirstOcc s old new = s := by
  induction s with
  | nil => simp [replaceFirstOcc]
  | cons c cs ih =>
    simp only [strContains, Bool.or_eq_false_iff] at h
    simp [replaceFirstOcc, h.1, ih h.2]

theorem replaceFirstOcc_append (old t new : List Char) (h : old ≠ []) :
    replaceFirstOcc (old ++ t) old new = new ++ t := by
  cases old with
  | nil => exact absurd rfl h
  | cons o os =>
    have hpre : strHasPre ((o :: os) ++ t) (o :: os) = true :=
      (strHasPre_iff_append (o :: os) _).mpr ⟨t, rfl⟩
    rw [show ((o :: os) ++ t : List Char) = o :: (os ++ t) from rfl]
    rw [replaceFirstOcc]
    simp only [show (o :: (os ++ t) : List Char) = (o :: os) ++ t from rfl, hpre,
      if_true]
    simp

/-- `RuntimeVersion` decoded from `state_getRuntimeVersion`
(cbc_init.go lines 63-73). -/
structure RuntimeVersion where
  specName : List Char
  implName : List Char
  authoringVersion : Int
  specVersion : Int
  implVersion : Int
  transactionVersion : Int
  stateVersion : Int
deriving DecidableEq

/-- The dao's stored runtime-version row, with the fields the bootstrap
core reads (`SpecVersion`, `RawData`, plus the name written on create). -/
structure RuntimeVersionRecord where
  specName : List Char
  specVersion : Int
  rawData : List Char
deriving DecidableEq

/-- The observable state of the runtime Store: what
`dao.RuntimeVersionRecent` returns. -/
structure StoreState where
  recent : Option RuntimeVersionRecord
deriving DecidableEq

/-- Tags naming the wrapping `fmt.Errorf` sites in the source. -/
inductive WrapTag
  /-- cbc_init.go line 91: failed to fetch runtime version. -/
  | fetchRuntimeVersionStep
  /-- cbc_init.go line 99: failed to fetch metadata. -/
  | fetchMetadataStep
  /-- cbc_init.go line 106: failed to insert runtime version. -/
  | insertStep
  /-- cbc_init.go lines 278 and 283: finalized-head call or its decode. -/
  | finHeadStep
  /-- cbc_init.go lines 296 and 302: block call or its decode. -/
  | finBlockStep
  /-- service.go line 81: CBC initialization failed. -/
  | cbcInitStep
deriving DecidableEq

/-- The error taxonomy of the bootstrap core. `transport` covers every
failure mode of `makeRPCCall` (request build, HTTP failure, non-200
status, body read, envelope parse); `rpcRemote` is a populated JSON-RPC
error object; `unmarshalErr` is a payload-decode failure;
`invalidMetadataFormat` is cbc_init.go line 148; `afterRetries` is the
retry-exhaustion wrap of lines 155 and 189; `verifyFailed` is the
post-write verification failure of line 259; `notCBCNetwork` is
service.go line 70. -/
inductive GoErr
  | transport (msg : List Char)
  | rpcRemote (code : Int) (msg : List Char)
  | unmarshalErr
  | invalidMetadataFormat
  | afterRetries (attempts : Nat) (last : Option GoErr)
  | verifyFailed
  | notCBCNetwork
  | wrapped (tag : WrapTag) (inner : GoErr)

/-- Outcome of one `makeRPCCall` round trip followed by the
`json.Unmarshal` of its result payload: either some `GoErr` (transport,
remote RPC error, or decode failure), or the decoded value. -/
inductive RpcAttempt (α : Type)
  | fail (e : GoErr)
  | result (value : α)

/-- Result of one fetch loop: the outcome, how many attempts (RPC calls)
were made, and the list of inter-attempt sleep durations in order. -/
structure FetchTrace (α : Type) where
  out : Except GoErr α
  attemptsMade : Nat
  sleeps : List Nat

/-- The loop body of `fetchMetadata` (cbc_init.go lines 120-156),
iterating over the remaining loop indices. Before every attempt with
index `i > 0` a fixed sleep of `retryWait` is performed. A decoded
metadata string lacking the `"0x"` prefix is recorded as
`invalidMetadataFormat` and the loop continues. -/
def fetchMetadataFrom (attempts : Nat → RpcAttempt (List Char))
    (retries retryWait : Nat) :
    List Nat → Option GoErr → Nat → List Nat → FetchTrace (List Char)
  | [], lastErr, made, sleeps =>
    ⟨.error (.afterRetries retries lastErr), made, sleeps⟩
  | i :: rest, _lastErr, made, sleeps =>
    let sleeps2 := if 0 < i then sleeps ++ [retryWait] else sleeps
    match attempts i with
    | .fail e => fetchMetadataFrom attempts retries retryWait rest (some e)
        (made + 1) sleeps2
    | .result metadataHex =>
      if strHasPre metadataHex "0x".data then
        ⟨.ok metadataHex, made + 1, sleeps2⟩
      else
        fetchMetadataFrom attempts retries retryWait rest
          (some .invalidMetadataFormat) (made + 1) sleeps2

/-- `fetchMetadata` with the initializer's fixed budget: `retries = 3`,
`retryWait = 2` time-units (cbc_init.go lines 36-37). -/
def fetchMetadata (attempts : Nat → RpcAttempt (List Char)) :
    FetchTrace (List Char) :=
  fetchMetadataFrom attempts 3 2 (List.range 3) none 0 []

/-- The loop body of `fetchRuntimeVersion` (cbc_init.go lines 159-190):
same retry shape as the metadata fetch, but a successfully decoded
`RuntimeVersion` is returned without further validation. -/
def fetchRuntimeVersionFrom (attempts : Nat → RpcAttempt RuntimeVersion)
    (retries retryWait : Nat) :
    List Nat → Option GoErr → Nat → List Nat → FetchTrace RuntimeVersion
  | [], lastErr, made, sleeps =>
    ⟨.error (.afterRetries retries lastErr), made, sleeps⟩
  | i :: rest, _lastErr, made, sleeps =>
    let sleeps2 := if 0 < i then sleeps ++ [retryWait] else sleeps
    match attempts i with
    | .fail e => fetchRuntimeVersionFrom attempts retries retryWait rest
        (some e) (made + 1) sleeps2
    | .result version => ⟨.ok version, made + 1, sleeps2⟩

/-- `fetchRuntimeVersion` with the fixed budget `retries = 3`,
`retryWait = 2`. -/
def fetchRuntimeVersion (attempts : Nat → RpcAttempt RuntimeVersion) :
    FetchTrace RuntimeVersion :=
  fetchRuntimeVersionFrom attempts 3 2 (List.range 3) none 0 []

/-- The dao write operations as state transformers supplied by the
environment: `CreateRuntimeVersion` returns a success flag,
`SetRuntimeData` returns an affected-row count. The reads are the
`recent` field of the evolving `StoreState`. -/
structure DaoEnv where
  createRuntimeVersion : StoreState → List Char → Int → Int → StoreState × Bool
  setRuntimeData : StoreState → Int → List Char → List Char → StoreState × Int

/-- The module list written by `insertRuntimeVersion`
(cbc_init.go line 239). -/
def cbcModules : List Char :=
  "System|Timestamp|Balances|TransactionPayment|Sudo|PalletCbcPoi|PalletCbcPos|Dcf".data

/-- Result of `insertRuntimeVersion`: outcome, final store state and the
number of `CreateRuntimeVersion` / `SetRuntimeData` writes issued. -/
structure InsertTrace where
  out : Except GoErr Unit
  db : StoreState
  createWrites : Nat
  setDataWrites : Nat

/-- `insertRuntimeVersion` (cbc_init.go lines 235-264): skip when a
record with the fetched spec version and more than 100 characters of
metadata already exists; otherwise issue the two writes and then
re-read, failing with `verifyFailed` unless the re-read record exists,
matches the spec version and has at least 100 characters of metadata. -/
def insertRuntimeVersion (dao : DaoEnv) (db : StoreState)
    (version : RuntimeVersion) (metadataHex : List Char) : InsertTrace :=
  let skip : Bool :=
    match db.recent with
    | none => false
    | some recent =>
      recent.specVersion == version.specVersion &&
        decide (100 < recent.rawData.length)
  if skip then ⟨.ok (), db, 0, 0⟩
  else
    let step1 := dao.createRuntimeVersion db version.specName version.specVersion 0
    let step2 := dao.setRuntimeData step1.1 version.specVersion cbcModules metadataHex
    match step2.1.recent with
    | none => ⟨.error .verifyFailed, step2.1, 1, 1⟩
    | some recent =>
      if recent.specVersion ≠ version.specVersion ∨ recent.rawData.length < 100 then
        ⟨.error .verifyFailed, step2.1, 1, 1⟩
      else ⟨.ok (), step2.1, 1, 1⟩

/-- The check `recent != nil && strings.HasPrefix(recent.RawData, "0x")`
at cbc_init.go line 81, by which `Initialize` decides that bootstrap can
be skipped. -/
def recentHasUsableMetadata : Option RuntimeVersionRecord → Bool
  | none => false
  | some recent => strHasPre recent.rawData "0x".data

/-- Result of one `Initialize` invocation: outcome, total number of RPC
round trips performed, final store state, write counts, and the
`metadata.Latest` registration issued on success (spec version with the
raw metadata). -/
structure InitTrace where
  out : Except GoErr Unit
  rpcCalls : Nat
  db : StoreState
  createWrites : Nat
  setDataWrites : Nat
  registered : Option (Int × List Char)

/-- `Initialize` (cbc_init.go lines 76-117): skip when the stored recent
record has `"0x"`-prefixed raw data; otherwise fetch the runtime version
and the metadata (each with its own retry loop), insert and verify, and
finally register the metadata with the codec. -/
def Initialize (dao : DaoEnv) (rvAttempts : Nat → RpcAttempt RuntimeVersion)
    (mdAttempts : Nat → RpcAttempt (List Char)) (db : StoreState) : InitTrace :=
  if recentHasUsableMetadata db.recent then
    ⟨.ok (), 0, db, 0, 0, none⟩
  else
    let rv := fetchRuntimeVersion rvAttempts
    match rv.out with
    | .error e =>
      ⟨.error (.wrapped .fetchRuntimeVersionStep e), rv.attemptsMade, db, 0, 0, none⟩
    | .ok version =>
      let md := fetchMetadata mdAttempts
      match md.out with
      | .error e =>
        ⟨.error (.wrapped .fetchMetadataStep e),
          rv.attemptsMade + md.attemptsMade, db, 0, 0, none⟩
      | .ok metadataHex =>
        let ins := insertRuntimeVersion dao db version metadataHex
        match ins.out with
        | .error e =>
          ⟨.error (.wrapped .insertStep e), rv.attemptsMade + md.attemptsMade,
            ins.db, ins.createWrites, ins.setDataWrites, none⟩
        | .ok _ =>
          ⟨.ok (), rv.attemptsMade + md.attemptsMade, ins.db, ins.createWrites,
            ins.setDataWrites, some (version.specVersion, metadataHex)⟩

/-- The 60-zero suffix literal tested at cbc_init.go line 308. -/
def dcfZeroSuffix : List Char := List.replicate 60 '0'

theorem dcfZeroSuffix_eq_literal :
    dcfZeroSuffix =
      "000000000000000000000000000000000000000000000000000000000000".data := by
  decide

/-- Classification outcome of the finality liveness check: `warned` is
the genesis-looking branch, `passed` the success log line. -/
inductive FinalityClass
  | warned
  | passed
deriving DecidableEq

/-- The hash classification at cbc_init.go line 308: warn when the
finalized hash equals `"0x"` or ends in the 60-zero suffix. -/
def classifyFinalizedHash (finalizedHash : List Char) : FinalityClass :=
  if finalizedHash = "0x".data ∨ strHasSuf finalizedHash dcfZeroSuffix then
    .warned
  else .passed

/-- Environment for `VerifyDCFFinality`: the combined outcome of the
`chain_getFinalizedHead` call and its string decode, and — given the
obtained hash — of the `chain_getBlock` call and its decode (block
contents are otherwise unused, so the decoded value is `Unit`). -/
structure FinalityEnv where
  headCall : RpcAttempt (List Char)
  blockCall : List Char → RpcAttempt Unit

/-- `VerifyDCFFinality` (cbc_init.go lines 267-316): two RPC round
trips; any failure is returned as an error to the caller; otherwise the
finalized hash is classified and the function returns nil. -/
def VerifyDCFFinality (env : FinalityEnv) : Except GoErr FinalityClass :=
  match env.headCall with
  | .fail e => .error (.wrapped .finHeadStep e)
  | .result finalizedHash =>
    match env.blockCall finalizedHash with
    | .fail e => .error (.wrapped .finBlockStep e)
    | .result _ => .ok (classifyFinalizedHash finalizedHash)

/-- Number of RPC round trips `VerifyDCFFinality` performs: one when the
head call fails, two otherwise. -/
def finalityCalls (env : FinalityEnv) : Nat :=
  match env.headCall with
  | .fail _ => 1
  | .result finalizedHash =>
    match env.blockCall finalizedHash with
    | .fail _ => 2
    | .result _ => 2

/-- The applicability guard of `initCBCChain` (service.go line 68),
exactly as written: lowered name equal to `"cbc"`, or equal to
`"cbc-chain"`, or containing `"cbc"`. -/
def cbcGuard (networkName : List Char) : Bool :=
  networkName == "cbc".data || networkName == "cbc-chain".data ||
    strContains networkName "cbc".data

/-- Result of one `initCBCChain` invocation: outcome, total RPC round
trips, write counts, final store state, and whether the finality warning
of service.go line 86 was logged. -/
structure ServiceTrace where
  out : Except GoErr Unit
  rpcCalls : Nat
  createWrites : Nat
  setDataWrites : Nat
  db : StoreState
  finalityWarningLogged : Bool

/-- `initCBCChain` (service.go lines 62-92): when the lowered network
name fails the guard, return the not-a-CBC-network error without any RPC
call or write; otherwise run `Initialize` (propagating its failure
wrapped) and then `VerifyDCFFinality`, whose failure is only logged as a
warning and never propagated. -/
def initCBCChain (networkNode : List Char) (dao : DaoEnv)
    (rvAttempts : Nat → RpcAttempt RuntimeVersion)
    (mdAttempts : Nat → RpcAttempt (List Char))
    (finEnv : FinalityEnv) (db : StoreState) : ServiceTrace :=
  let networkName := toLowerGo networkNode
  if cbcGuard networkName then
    let ini := Initialize dao rvAttempts mdAttempts db
    match ini.out with
    | .error e =>
      ⟨.error (.wrapped .cbcInitStep e), ini.rpcCalls, ini.createWrites,
        ini.setDataWrites, ini.db, false⟩
    | .ok _ =>
      match VerifyDCFFinality finEnv with
      | .error _ =>
        ⟨.ok (), ini.rpcCalls + finalityCalls finEnv, ini.createWrites,
          ini.setDataWrites, ini.db, true⟩
      | .ok _ =>
        ⟨.ok (), ini.rpcCalls + finalityCalls finEnv, ini.createWrites,
          ini.setDataWrites, ini.db, false⟩
  else
    ⟨.error .notCBCNetwork, 0, 0, 0, db, false⟩

/-- The two metadata-initialization paths `New` chooses between
(service.go lines 33-41). -/
inductive InitPath
  | standardInit
  | withoutFetch
deriving DecidableEq

/-- The branch in `New` mapping `initCBCChain`'s outcome to the
follow-up initialization path: a failure is logged and falls back to the
generic `initSubRuntimeLatest`, success proceeds without re-fetching. -/
def newServiceMetadataPath (r : Except GoErr Unit) : InitPath :=
  match r with
  | .error _ => .standardInit
  | .ok _ => .withoutFetch

/-- Classification of one metadata attempt as the retry loop sees it: an
RPC-level failure, or a decoded string lacking the `"0x"` prefix. -/
def mdAttemptFailed : RpcAttempt (List Char) → Bool
  | .fail _ => true
  | .result metadataHex => !(strHasPre metadataHex "0x".data)

/-- The `lastErr` value one failed metadata attempt leaves behind. -/
def mdAttemptErr : RpcAttempt (List Char) → GoErr
  | .fail e => e
  | .result _ => .invalidMetadataFormat

theorem fetchMetadataFrom_made_le (attempts : Nat → RpcAttempt (List Char))
    (retries retryWait : Nat) :
    ∀ (idxs : List Nat) (lastErr : Option GoErr) (made : Nat) (sleeps : List Nat),
      made ≤
        (fetchMetadataFrom attempts retries retryWait idxs lastErr made sleeps).attemptsMade := by
  intro idxs
  induction idxs with
  | nil =>
    intro lastErr made sleeps
    simp [fetchMetadataFrom]
  | cons i rest ih =>
    intro lastErr made sleeps
    rw [fetchMetadataFrom]
    cases h : attempts i with
    | fail e =>
      exact le_trans (Nat.le_succ made) (ih _ _ _)
    | result metadataHex =>
      by_cases hp : strHasPre metadataHex "0x".data
      · simp [hp, Nat.le_succ]
      · simp only [hp, Bool.false_eq_true, if_false]
        exact le_trans (Nat.le_succ made) (ih _ _ _)

theorem fetchMetadataFrom_made_pos (attempts : Nat → RpcAttempt (List Char))
    (retries retryWait : Nat) (i : Nat) (rest : List Nat)
    (lastErr : Option GoErr) (made : Nat) (sleeps : List Nat) :
    made + 1 ≤
      (fetchMetadataFrom attempts retries retryWait (i :: rest) lastErr made
        sleeps).attemptsMade := by
  rw [fetchMetadataFrom]
  cases h : attempts i with
  | fail e => exact fetchMetadataFrom_made_le attempts retries retryWait rest _ _ _
  | result metadataHex =>
    by_cases hp : strHasPre metadataHex "0x".data
    · simp [hp]
    · simp only [hp, Bool.false_eq_true, if_false]
      exact fetchMetadataFrom_made_le attempts retries retryWait rest _ _ _

theorem fetchRuntimeVersionFrom_made_le (attempts : Nat → RpcAttempt RuntimeVersion)
    (retries retryWait : Nat) :
    ∀ (idxs : List Nat) (lastErr : Option GoErr) (made : Nat) (sleeps : List Nat),
      made ≤
        (fetchRuntimeVersionFrom attempts retries retryWait idxs lastErr made
          sleeps).attemptsMade := by
  intro idxs
  induction idxs with
  | nil =>
    intro lastErr made sleeps
    simp [fetchRuntimeVersionFrom]
  | cons i rest ih =>
    intro lastErr made sleeps
    rw [fetchRuntimeVersionFrom]
    cases h : attempts i with
    | fail e => exact le_trans (Nat.le_succ made) (ih _ _ _)
    | result version => simp [Nat.le_succ]

theorem fetchRuntimeVersionFrom_made_pos (attempts : Nat → RpcAttempt RuntimeVersion)
    (retries retryWait : Nat) (i : Nat) (rest : List Nat)
    (lastErr : Option GoErr) (made : Nat) (sleeps : List Nat) :
    made + 1 ≤
      (fetchRuntimeVersionFrom attempts retries retryWait (i :: rest) lastErr made
        sleeps).attemptsMade := by
  rw [fetchRuntimeVersionFrom]
  cases h : attempts i with
  | fail e => exact fetchRuntimeVersionFrom_made_le attempts retries retryWait rest _ _ _
  | result version => simp

theorem fetchRuntimeVersion_made_pos (attempts : Nat → RpcAttempt RuntimeVersion) :
    1 ≤ (fetchRuntimeVersion attempts).attemptsMade :=
  fetchRuntimeVersionFrom_made_pos attempts 3 2 0 [1, 2] none 0 []

theorem fetchMetadataFrom_ok_hasPre (attempts : Nat → RpcAttempt (List Char))
    (retries retryWait : Nat) :
    ∀ (idxs : List Nat) (lastErr : Option GoErr) (made : Nat) (sleeps : List Nat)
      (metadataHex : List Char),
      (fetchMetadataFrom attempts retries retryWait idxs lastErr made sleeps).out =
        .ok metadataHex →
      strHasPre metadataHex "0x".data = true := by
  intro idxs
  induction idxs with
  | nil =>
    intro lastErr made sleeps metadataHex h
    simp [fetchMetadataFrom] at h
  | cons i rest ih =>
    intro lastErr made sleeps metadataHex h
    rw [fetchMetadataFrom] at h
    cases ha : attempts i with
    | fail e =>
      rw [ha] at h
      exact ih _ _ _ _ h
    | result hex2 =>
      rw [ha] at h
      by_cases hp : strHasPre hex2 "0x".data
      · simp only [hp, if_true] at h
        obtain rfl : hex2 = metadataHex := by
          simpa using congrArg (fun t : Except GoErr (List Char) =>
            match t with | .ok v => v | .error _ => hex2) h
        exact hp
      · simp only [hp, Bool.false_eq_true, if_false] at h
        exact ih _ _ _ _ h

theorem initialize_rpcCalls_pos (dao : DaoEnv)
    (rvAttempts : Nat → RpcAttempt RuntimeVersion)
    (mdAttempts : Nat → RpcAttempt (List Char)) (db : StoreState)
    (hc : recentHasUsableMetadata db.recent = false) :
    1 ≤ (Initialize dao rvAttempts mdAttempts db).rpcCalls := by
  have h1 := fetchRuntimeVersion_made_pos rvAttempts
  simp only [Initialize, hc, Bool.false_eq_true, if_false]
  split
  · exact h1
  · split
    · exact le_trans h1 (Nat.le_add_right _ _)
    · split
      · exact le_trans h1 (Nat.le_add_right _ _)
      · exact le_trans h1 (Nat.le_add_right _ _)

/-- Record-validity as the specification words it in §3: non-empty,
`"0x"`-prefixed, and strictly more than 100 characters long. This
definition follows the spec's words, for comparison with the source's
check `recentHasUsableMetadata`. -/
def specRecordValidity (raw : List Char) : Bool :=
  !raw.isEmpty && strHasPre raw "0x".data && decide (100 < raw.length)

/-- A stored record whose raw metadata is `"0x"`-prefixed but only four
characters long. -/
def shortPrefixedRecord : RuntimeVersionRecord :=
  ⟨"cbc".data, 100, "0xab".data⟩

/-- C1 counterexample: the check at cbc_init.go line 81 accepts a stored
record whose metadata is `"0xab"` — four characters, far below the
100-character threshold — so the claimed "if and only if … length
strictly greater than 100" is false: the accepted set is strictly larger
than the spec's §3-valid set. -/
theorem init_skip_check_cex :
    recentHasUsableMetadata (some shortPrefixedRecord) = true ∧
    specRecordValidity shortPrefixedRecord.rawData = false := by
  decide

/-- C1 (amended): the metadata check used by `Initialize` to decide
whether bootstrap can be skipped accepts a stored record exactly when it
exists and its raw metadata begins with `"0x"` (hence is non-empty); no
length threshold is applied at this decision point. Equivalently,
`Initialize` performs zero RPC calls precisely when that prefix
condition holds. -/
theorem init_skip_check_spec (dao : DaoEnv)
    (rvAttempts : Nat → RpcAttempt RuntimeVersion)
    (mdAttempts : Nat → RpcAttempt (List Char)) (db : StoreState) :
    ((Initialize dao rvAttempts mdAttempts db).rpcCalls = 0 ↔
      recentHasUsableMetadata db.recent = true) ∧
    (recentHasUsableMetadata db.recent = true ↔
      ∃ r, db.recent = some r ∧ strHasPre r.rawData "0x".data = true) := by
  constructor
  · by_cases hc : recentHasUsableMetadata db.recent = true
    · simp [Initialize, hc]
    · have hc2 : recentHasUsableMetadata db.recent = false := by
        simpa using hc
      have h1 := initialize_rpcCalls_pos dao rvAttempts mdAttempts db hc2
      constructor
      · intro h0
        omega
      · intro h
        exact absurd h hc
  · cases hdb : db.recent with
    | none => simp [recentHasUsableMetadata]
    | some r => simp [recentHasUsableMetadata]

/-- C10: whenever `fetchMetadata` succeeds, the returned hex string
begins with `"0x"`; a decoded response string lacking the prefix is
never returned as a success but drives the loop into a further attempt. -/
theorem fetchMetadata_success_has_0x (mdAttempts : Nat → RpcAttempt (List Char)) :
    (∀ metadataHex, (fetchMetadata mdAttempts).out = .ok metadataHex →
      strHasPre metadataHex "0x".data = true) ∧
    (∀ h0, mdAttempts 0 = .result h0 → strHasPre h0 "0x".data = false →
      2 ≤ (fetchMetadata mdAttempts).attemptsMade) := by
  constructor
  · intro metadataHex h
    exact fetchMetadataFrom_ok_hasPre mdAttempts 3 2 _ _ _ _ _ h
  · intro h0 ha hp
    show 2 ≤ (fetchMetadataFrom mdAttempts 3 2 [0, 1, 2] none 0 []).attemptsMade
    rw [fetchMetadataFrom, ha]
    simp only [hp, Bool.false_eq_true, if_false]
    exact fetchMetadataFrom_made_pos mdAttempts 3 2 1 [2] _ _ _

/-- Concrete environment: first metadata attempt decodes to a
non-prefixed string, second attempt succeeds. -/
def demoMdRecovering : Nat → RpcAttempt (List Char) :=
  fun i => if i = 0 then .result "deadbeef".data else .result ("0x".data ++ "ab".data)

theorem fetchMetadata_success_has_0x_witness :
    (∀ metadataHex, (fetchMetadata demoMdRecovering).out = .ok metadataHex →
      strHasPre metadataHex "0x".data = true) ∧
    2 ≤ (fetchMetadata demoMdRecovering).attemptsMade :=
  ⟨(fetchMetadata_success_has_0x demoMdRecovering).1,
    (fetchMetadata_success_has_0x demoMdRecovering).2 "deadbeef".data rfl
      (by decide)⟩

theorem convertWSToHTTP_ws (r : List Char) (hr : r ≠ []) :
    convertWSToHTTP ("ws://".data ++ r) = "http://".data ++ r := by
  have hpre : strHasPre ("ws://".data ++ r) "ws://".data = true :=
    (strHasPre_iff_append _ _).mpr ⟨r, rfl⟩
  have hlen : 5 < ("ws://".data ++ r).length := by
    have := List.length_pos.mpr hr
    simp only [List.length_append, List.length_cons, List.length_nil]
    omega
  rw [convertWSToHTTP, if_pos ⟨hlen, hpre⟩]
  rw [show (5 : Nat) = ("ws://".data).length from rfl, List.drop_left]

theorem convertWSToHTTP_wss (r : List Char) (hr : r ≠ []) :
    convertWSToHTTP ("wss://".data ++ r) = "https://".data ++ r := by
  have hpre : strHasPre ("wss://".data ++ r) "wss://".data = true :=
    (strHasPre_iff_append _ _).mpr ⟨r, rfl⟩
  have hnot : strHasPre ("wss://".data ++ r) "ws://".data = false := rfl
  have hlen : 6 < ("wss://".data ++ r).length := by
    have := List.length_pos.mpr hr
    simp only [List.length_append, List.length_cons, List.length_nil]
    omega
  rw [convertWSToHTTP,
    if_neg (fun hcon => Bool.noConfusion (hnot.symm.trans hcon.2)),
    if_pos ⟨hlen, hpre⟩]
  rw [show (6 : Nat) = ("wss://".data).length from rfl, List.drop_left]

theorem convertWSToHTTP_of_http (t : List Char) :
    convertWSToHTTP ("http://".data ++ t) = "http://".data ++ t := by
  have h1 : strHasPre ("http://".data ++ t) "ws://".data = false := rfl
  have h2 : strHasPre ("http://".data ++ t) "wss://".data = false := rfl
  rw [convertWSToHTTP,
    if_neg (fun hcon => Bool.noConfusion (h1.symm.trans hcon.2)),
    if_neg (fun hcon => Bool.noConfusion (h2.symm.trans hcon.2))]

theorem convertWSToHTTP_of_https (t : List Char) :
    convertWSToHTTP ("https://".data ++ t) = "https://".data ++ t := by
  have h1 : strHasPre ("https://".data ++ t) "ws://".data = false := rfl
  have h2 : strHasPre ("https://".data ++ t) "wss://".data = false := rfl
  rw [convertWSToHTTP,
    if_neg (fun hcon => Bool.noConfusion (h1.symm.trans hcon.2)),
    if_neg (fun hcon => Bool.noConfusion (h2.symm.trans hcon.2))]

theorem convertWSToHTTP_fix (s : List Char)
    (h1 : strContains s "ws://".data = false)
    (h2 : strContains s "wss://".data = false) :
    convertWSToHTTP s = s := by
  have g1 : strHasPre s "ws://".data = false := by
    cases hp : strHasPre s "ws://".data
    · rfl
    · exact absurd (strContains_of_strHasPre hp) (by simp [h1])
  have g2 : strHasPre s "wss://".data = false := by
    cases hp : strHasPre s "wss://".data
    · rfl
    · exact absurd (strContains_of_strHasPre hp) (by simp [h2])
  rw [convertWSToHTTP, if_neg (by simp [g1]), if_neg (by simp [g2])]

theorem newInitializerHttpURL_ws (r : List Char)
    (hr2 : strContains r "wss://".data = false) :
    newInitializerHttpURL ("ws://".data ++ r) = "http://".data ++ r := by
  have step1 : replaceFirstOcc ("ws://".data ++ r) "ws://".data "http://".data =
      "http://".data ++ r :=
    replaceFirstOcc_append "ws://".data r "http://".data (by decide)
  have hnc : strContains ("http://".data ++ r) "wss://".data = false := by
    simp [strContains, strHasPre, hr2]
  rw [newInitializerHttpURL, step1, replaceFirstOcc_of_not_contains _ hnc]

theorem newInitializerHttpURL_wss (r : List Char)
    (hr1 : strContains r "ws://".data = false) :
    newInitializerHttpURL ("wss://".data ++ r) = "https://".data ++ r := by
  have hnc : strContains ("wss://".data ++ r) "ws://".data = false := by
    simp [strContains, strHasPre, hr1]
  rw [newInitializerHttpURL, replaceFirstOcc_of_not_contains _ hnc]
  exact replaceFirstOcc_append "wss://".data r "https://".data (by decide)

theorem newInitializerHttpURL_fix (s : List Char)
    (h1 : strContains s "ws://".data = false)
    (h2 : strContains s "wss://".data = false) :
    newInitializerHttpURL s = s := by
  rw [newInitializerHttpURL, replaceFirstOcc_of_not_contains _ h1,
    replaceFirstOcc_of_not_contains _ h2]

/-- C8: endpoint translation. `convertWSToHTTP` maps a `ws://` endpoint
with non-empty remainder to the corresponding `http://` endpoint, a
`wss://` endpoint to `https://`, and returns endpoints already on
`http://` or `https://` unchanged; both it and the `httpURL` computation
of `NewCBCInitializer` agree on the three endpoints named by the
specification's examples. -/
theorem endpoint_translation_spec :
    (∀ r : List Char, r ≠ [] →
      convertWSToHTTP ("ws://".data ++ r) = "http://".data ++ r ∧
      convertWSToHTTP ("wss://".data ++ r) = "https://".data ++ r) ∧
    (∀ t : List Char,
      convertWSToHTTP ("http://".data ++ t) = "http://".data ++ t ∧
      convertWSToHTTP ("https://".data ++ t) = "https://".data ++ t) ∧
    convertWSToHTTP "ws://172.17.0.1:9933".data = "http://172.17.0.1:9933".data ∧
    convertWSToHTTP "wss://example.com:9944".data = "https://example.com:9944".data ∧
    convertWSToHTTP "http://localhost:9933".data = "http://localhost:9933".data ∧
    newInitializerHttpURL "ws://172.17.0.1:9933".data =
      "http://172.17.0.1:9933".data ∧
    newInitializerHttpURL "wss://example.com:9944".data =
      "https://example.com:9944".data ∧
    newInitializerHttpURL "http://localhost:9933".data =
      "http://localhost:9933".data :=
  ⟨fun r hr => ⟨convertWSToHTTP_ws r hr, convertWSToHTTP_wss r hr⟩,
    fun t => ⟨convertWSToHTTP_of_http t, convertWSToHTTP_of_https t⟩,
    by decide, by decide, by decide, by decide, by decide, by decide⟩

theorem endpoint_translation_spec_witness :
    convertWSToHTTP ("ws://".data ++ "h:1".data) = "http://".data ++ "h:1".data ∧
    convertWSToHTTP ("wss://".data ++ "h:1".data) = "https://".data ++ "h:1".data :=
  ⟨(endpoint_translation_spec.1 "h:1".data (by decide)).1,
    (endpoint_translation_spec.1 "h:1".data (by decide)).2⟩

/-- C9 counterexample: the two endpoint-conversion implementations are
not equivalent. On `"aws://b"` the substring-replacement version of
`NewCBCInitializer` yields `"ahttp://b"`, while the prefix-testing
`convertWSToHTTP` returns the input unchanged. -/
theorem endpoint_conversion_equiv_cex :
    newInitializerHttpURL "aws://b".data = "ahttp://b".data ∧
    convertWSToHTTP "aws://b".data = "aws://b".data ∧
    newInitializerHttpURL "aws://b".data ≠ convertWSToHTTP "aws://b".data := by
  decide

/-- C9 (amended): the two endpoint conversions agree on every endpoint
in which the WebSocket schemes occur at most as the leading scheme:
endpoints containing neither `"ws://"` nor `"wss://"` anywhere, and
endpoints of the form `ws://rest` or `wss://rest` with non-empty `rest`
containing neither pattern. -/
theorem endpoint_conversion_equiv_spec (s r : List Char) (hr : r ≠ [])
    (hr1 : strContains r "ws://".data = false)
    (hr2 : strContains r "wss://".data = false) :
    (strContains s "ws://".data = false → strContains s "wss://".data = false →
      newInitializerHttpURL s = convertWSToHTTP s) ∧
    newInitializerHttpURL ("ws://".data ++ r) =
      convertWSToHTTP ("ws://".data ++ r) ∧
    newInitializerHttpURL ("wss://".data ++ r) =
      convertWSToHTTP ("wss://".data ++ r) := by
  refine ⟨fun h1 h2 => ?_, ?_, ?_⟩
  · rw [newInitializerHttpURL_fix s h1 h2, convertWSToHTTP_fix s h1 h2]
  · rw [newInitializerHttpURL_ws r hr2, convertWSToHTTP_ws r hr]
  · rw [newInitializerHttpURL_wss r hr1, convertWSToHTTP_wss r hr]

theorem endpoint_conversion_equiv_spec_witness :
    newInitializerHttpURL ("ws://".data ++ "h:1".data) =
      convertWSToHTTP ("ws://".data ++ "h:1".data) ∧
    newInitializerHttpURL ("wss://".data ++ "h:1".data) =
      convertWSToHTTP ("wss://".data ++ "h:1".data) :=
  ⟨(endpoint_conversion_equiv_spec "x".data "h:1".data (by decide) (by decide)
      (by decide)).2.1,
    (endpoint_conversion_equiv_spec "x".data "h:1".data (by decide) (by decide)
      (by decide)).2.2⟩

/-- C2: a Store already holding a §3-valid record makes `Initialize` an
immediate success with zero RPC calls, zero writes and an unchanged
Store, and a second invocation over the resulting Store behaves
identically. -/
theorem initialize_idempotent_on_valid_store (dao : DaoEnv)
    (rvAttempts : Nat → RpcAttempt RuntimeVersion)
    (mdAttempts : Nat → RpcAttempt (List Char)) (db : StoreState)
    (r : RuntimeVersionRecord)
    (hrec : db.recent = some r)
    (_hne : r.rawData ≠ [])
    (hpre : strHasPre r.rawData "0x".data = true)
    (_hlen : 100 < r.rawData.length) :
    Initialize dao rvAttempts mdAttempts db = ⟨.ok (), 0, db, 0, 0, none⟩ ∧
    Initialize dao rvAttempts mdAttempts
      (Initialize dao rvAttempts mdAttempts db).db =
      ⟨.ok (), 0, db, 0, 0, none⟩ := by
  have hc : recentHasUsableMetadata db.recent = true := by
    rw [hrec]
    simpa [recentHasUsableMetadata] using hpre
  have h1 : Initialize dao rvAttempts mdAttempts db = ⟨.ok (), 0, db, 0, 0, none⟩ := by
    simp [Initialize, hc]
  refine ⟨h1, ?_⟩
  rw [h1]
  exact h1

/-- A dao whose writes are acknowledged but change nothing visible
beyond the state handed to them. -/
def demoDao : DaoEnv :=
  ⟨fun db _ _ _ => (db, true), fun db _ _ _ => (db, 1)⟩

/-- A §3-valid stored record: `"0x"` followed by 120 further characters. -/
def demoRecord : RuntimeVersionRecord :=
  ⟨"cbc".data, 100, "0x".data ++ List.replicate 120 'a'⟩

def demoStore : StoreState := ⟨some demoRecord⟩

def demoRvFail : Nat → RpcAttempt RuntimeVersion :=
  fun _ => .fail (.transport "conn".data)

def demoMdFail : Nat → RpcAttempt (List Char) :=
  fun _ => .fail (.transport "conn".data)

theorem initialize_idempotent_on_valid_store_witness :
    Initialize demoDao demoRvFail demoMdFail demoStore =
      ⟨.ok (), 0, demoStore, 0, 0, none⟩ ∧
    Initialize demoDao demoRvFail demoMdFail
      (Initialize demoDao demoRvFail demoMdFail demoStore).db =
      ⟨.ok (), 0, demoStore, 0, 0, none⟩ :=
  initialize_idempotent_on_valid_store demoDao demoRvFail demoMdFail demoStore
    demoRecord rfl (by decide) (by decide) (by decide)

theorem fetchMetadataFrom_step_failed (attempts : Nat → RpcAttempt (List Char))
    (retries retryWait i : Nat) (rest : List Nat) (lastErr : Option GoErr)
    (made : Nat) (sleeps : List Nat)
    (hf : mdAttemptFailed (attempts i) = true) :
    fetchMetadataFrom attempts retries retryWait (i :: rest) lastErr made sleeps =
      fetchMetadataFrom attempts retries retryWait rest
        (some (mdAttemptErr (attempts i))) (made + 1)
        (if 0 < i then sleeps ++ [retryWait] else sleeps) := by
  rw [fetchMetadataFrom]
  cases ha : attempts i with
  | fail e => simp [mdAttemptErr, ha]
  | result metadataHex =>
    have hp : strHasPre metadataHex "0x".data = false := by
      simpa [mdAttemptFailed, ha] using hf
    simp [mdAttemptErr, ha, hp]

/-- C3: when every attempt of a fetch fails, exactly 3 attempts are
made, the two inter-attempt delays are the fixed 2 time-units, and the
fetch returns the retry-exhaustion failure naming 3 attempts and
carrying the last underlying cause; that failure fails the whole
`Initialize` call (wrapped with the corresponding fetch step). -/
theorem retry_exhaustion_spec (dao : DaoEnv)
    (rvAttempts : Nat → RpcAttempt RuntimeVersion)
    (mdAttempts : Nat → RpcAttempt (List Char)) (db : StoreState)
    (e0 e1 e2 : GoErr)
    (h0 : rvAttempts 0 = .fail e0) (h1 : rvAttempts 1 = .fail e1)
    (h2 : rvAttempts 2 = .fail e2)
    (m0 : mdAttemptFailed (mdAttempts 0) = true)
    (m1 : mdAttemptFailed (mdAttempts 1) = true)
    (m2 : mdAttemptFailed (mdAttempts 2) = true)
    (hdb : recentHasUsableMetadata db.recent = false) :
    fetchRuntimeVersion rvAttempts =
      ⟨.error (.afterRetries 3 (some e2)), 3, [2, 2]⟩ ∧
    fetchMetadata mdAttempts =
      ⟨.error (.afterRetries 3 (some (mdAttemptErr (mdAttempts 2)))), 3, [2, 2]⟩ ∧
    (Initialize dao rvAttempts mdAttempts db).out =
      .error (.wrapped .fetchRuntimeVersionStep (.afterRetries 3 (some e2))) ∧
    (∀ (rv2 : Nat → RpcAttempt RuntimeVersion) (version : RuntimeVersion),
      (fetchRuntimeVersion rv2).out = .ok version →
      (Initialize dao rv2 mdAttempts db).out =
        .error (.wrapped .fetchMetadataStep
          (.afterRetries 3 (some (mdAttemptErr (mdAttempts 2)))))) := by
  have hrv : fetchRuntimeVersion rvAttempts =
      ⟨.error (.afterRetries 3 (some e2)), 3, [2, 2]⟩ := by
    show fetchRuntimeVersionFrom rvAttempts 3 2 (List.range 3) none 0 [] = _
    rw [show (List.range 3 : List Nat) = [0, 1, 2] from rfl]
    rw [fetchRuntimeVersionFrom, h0]
    simp only [Nat.lt_irrefl, if_false]
    rw [fetchRuntimeVersionFrom, h1]
    simp only [Nat.zero_lt_one, if_true, List.nil_append]
    rw [fetchRuntimeVersionFrom, h2]
    simp [fetchRuntimeVersionFrom]
  have hmd : fetchMetadata mdAttempts =
      ⟨.error (.afterRetries 3 (some (mdAttemptErr (mdAttempts 2)))), 3, [2, 2]⟩ := by
    show fetchMetadataFrom mdAttempts 3 2 (List.range 3) none 0 [] = _
    rw [show (List.range 3 : List Nat) = [0, 1, 2] from rfl]
    rw [fetchMetadataFrom_step_failed mdAttempts 3 2 0 [1, 2] none 0 [] m0]
    rw [fetchMetadataFrom_step_failed mdAttempts 3 2 1 [2] _ _ _ m1]
    rw [fetchMetadataFrom_step_failed mdAttempts 3 2 2 [] _ _ _ m2]
    simp [fetchMetadataFrom]
  refine ⟨hrv, hmd, ?_, ?_⟩
  · simp [Initialize, hdb, hrv]
  · intro rv2 version hv
    simp [Initialize, hdb, hv, hmd]

theorem retry_exhaustion_spec_witness :
    fetchRuntimeVersion demoRvFail =
      ⟨.error (.afterRetries 3 (some (.transport "conn".data))), 3, [2, 2]⟩ ∧
    fetchMetadata demoMdFail =
      ⟨.error (.afterRetries 3 (some (mdAttemptErr (demoMdFail 2)))), 3, [2, 2]⟩ ∧
    (Initialize demoDao demoRvFail demoMdFail ⟨none⟩).out =
      .error (.wrapped .fetchRuntimeVersionStep
        (.afterRetries 3 (some (.transport "conn".data)))) ∧
    (∀ (rv2 : Nat → RpcAttempt RuntimeVersion) (version : RuntimeVersion),
      (fetchRuntimeVersion rv2).out = .ok version →
      (Initialize demoDao rv2 demoMdFail ⟨none⟩).out =
        .error (.wrapped .fetchMetadataStep
          (.afterRetries 3 (some (mdAttemptErr (demoMdFail 2)))))) :=
  retry_exhaustion_spec demoDao demoRvFail demoMdFail ⟨none⟩ _ _ _ rfl rfl rfl
    rfl rfl rfl rfl

/-- The store state visible after the two writes of
`insertRuntimeVersion` have been issued. -/
def postWriteStore (dao : DaoEnv) (db : StoreState) (version : RuntimeVersion)
    (metadataHex : List Char) : StoreState :=
  (dao.setRuntimeData
    (dao.createRuntimeVersion db version.specName version.specVersion 0).1
    version.specVersion cbcModules metadataHex).1

/-- C4: with both fetches succeeding on their first attempt and the
Store initially empty, a post-write re-read that yields no record, a
spec-version mismatch, or metadata shorter than 100 characters makes
`Initialize` fail with the verification error — a constructor distinct
from every transport error — after exactly one create write, one
set-data write, and two RPC calls, with no retry. -/
theorem insert_verification_failure_spec (dao : DaoEnv)
    (rvAttempts : Nat → RpcAttempt RuntimeVersion)
    (mdAttempts : Nat → RpcAttempt (List Char)) (db : StoreState)
    (version : RuntimeVersion) (metadataHex : List Char)
    (hdb : db.recent = none)
    (hrv : rvAttempts 0 = .result version)
    (hmdr : mdAttempts 0 = .result metadataHex)
    (hhex : strHasPre metadataHex "0x".data = true)
    (hfail : (postWriteStore dao db version metadataHex).recent = none ∨
      ∃ r, (postWriteStore dao db version metadataHex).recent = some r ∧
        (r.specVersion ≠ version.specVersion ∨ r.rawData.length < 100)) :
    Initialize dao rvAttempts mdAttempts db =
      ⟨.error (.wrapped .insertStep .verifyFailed), 2,
        postWriteStore dao db version metadataHex, 1, 1, none⟩ ∧
    (∀ msg, (GoErr.wrapped .insertStep .verifyFailed) ≠ .transport msg) := by
  have hc : recentHasUsableMetadata db.recent = false := by
    rw [hdb]
    rfl
  have hfrv : fetchRuntimeVersion rvAttempts = ⟨.ok version, 1, []⟩ := by
    show fetchRuntimeVersionFrom rvAttempts 3 2 (List.range 3) none 0 [] = _
    rw [show (List.range 3 : List Nat) = [0, 1, 2] from rfl]
    rw [fetchRuntimeVersionFrom, hrv]
    simp
  have hfmd : fetchMetadata mdAttempts = ⟨.ok metadataHex, 1, []⟩ := by
    show fetchMetadataFrom mdAttempts 3 2 (List.range 3) none 0 [] = _
    rw [show (List.range 3 : List Nat) = [0, 1, 2] from rfl]
    rw [fetchMetadataFrom, hmdr]
    simp [hhex]
  have hins : insertRuntimeVersion dao db version metadataHex =
      ⟨.error .verifyFailed, postWriteStore dao db version metadataHex, 1, 1⟩ := by
    rcases hfail with hnone | ⟨r, hr, hcond⟩
    · simp only [postWriteStore] at hnone
      simp [insertRuntimeVersion, hdb, hnone, postWriteStore]
    · simp only [postWriteStore] at hr
      simp only [insertRuntimeVersion, hdb, hr, postWriteStore]
      rw [if_neg (by simp), if_pos hcond]
  refine ⟨?_, fun msg h => GoErr.noConfusion h⟩
  simp [Initialize, hc, hfrv, hfmd, hins]

/-- A dao test double that silently drops both writes. -/
def demoDropDao : DaoEnv :=
  ⟨fun db _ _ _ => (db, true), fun db _ _ _ => (db, 0)⟩

def demoVersion : RuntimeVersion := ⟨"cbc".data, "cbc".data, 0, 100, 0, 0, 0⟩

def demoRvOk : Nat → RpcAttempt RuntimeVersion := fun _ => .result demoVersion

def demoMdOk : Nat → RpcAttempt (List Char) := fun _ => .result "0xab".data

theorem insert_verification_failure_spec_witness :
    Initialize demoDropDao demoRvOk demoMdOk ⟨none⟩ =
      ⟨.error (.wrapped .insertStep .verifyFailed), 2,
        postWriteStore demoDropDao ⟨none⟩ demoVersion "0xab".data, 1, 1, none⟩ ∧
    (∀ msg, (GoErr.wrapped .insertStep .verifyFailed) ≠ .transport msg) :=
  insert_verification_failure_spec demoDropDao demoRvOk demoMdOk ⟨none⟩
    demoVersion "0xab".data rfl rfl rfl (by decide) (Or.inl rfl)

/-- The "all-zero 64-hex-digit pattern" named by the specification:
`"0x"` followed by 64 zero digits. This definition follows the spec's
words, for comparison with the source's suffix test. -/
def allZero64Hash : List Char := "0x".data ++ List.replicate 64 '0'

/-- A hash that is not the all-zero pattern but ends in 60 zero
digits. -/
def partialZeroHash : List Char := "0xff".data ++ List.replicate 60 '0'

/-- C5 counterexample: the claimed classification ("warning iff empty or
the all-zero 64-digit pattern") disagrees with `VerifyDCFFinality` at
three concrete hashes: the empty hash is classified success, while
`"0x"` and a hash merely ending in 60 zeros — neither empty nor the
all-zero pattern — are classified warning. -/
theorem finality_classification_cex :
    VerifyDCFFinality ⟨.result [], fun _ => .result ()⟩ = .ok .passed ∧
    VerifyDCFFinality ⟨.result "0x".data, fun _ => .result ()⟩ = .ok .warned ∧
    VerifyDCFFinality ⟨.result partialZeroHash, fun _ => .result ()⟩ =
      .ok .warned ∧
    "0x".data ≠ ([] : List Char) ∧ "0x".data ≠ allZero64Hash ∧
    partialZeroHash ≠ ([] : List Char) ∧ partialZeroHash ≠ allZero64Hash :=
  ⟨rfl, rfl, rfl, by decide, by decide, by decide, by decide⟩

/-- C5 (amended): when both of its RPC calls succeed,
`VerifyDCFFinality` yields the warning outcome exactly when the
finalized-head hash equals `"0x"` or ends in 60 zero hex digits (which
includes the all-zero 64-digit pattern), and the success outcome for
every other hash. -/
theorem finality_classification_spec (env : FinalityEnv)
    (finalizedHash : List Char)
    (hhead : env.headCall = .result finalizedHash)
    (hblock : env.blockCall finalizedHash = .result ()) :
    (VerifyDCFFinality env = .ok .warned ↔
      (finalizedHash = "0x".data ∨ ∃ p, finalizedHash = p ++ dcfZeroSuffix)) ∧
    (VerifyDCFFinality env = .ok .passed ↔
      ¬(finalizedHash = "0x".data ∨ ∃ p, finalizedHash = p ++ dcfZeroSuffix)) := by
  have hv : VerifyDCFFinality env = .ok (classifyFinalizedHash finalizedHash) := by
    simp [VerifyDCFFinality, hhead, hblock]
  have hiff : (finalizedHash = "0x".data ∨
        strHasSuf finalizedHash dcfZeroSuffix = true) ↔
      (finalizedHash = "0x".data ∨ ∃ p, finalizedHash = p ++ dcfZeroSuffix) :=
    or_congr Iff.rfl (strHasSuf_iff_append _ _)
  rw [hv]
  unfold classifyFinalizedHash
  by_cases hcl : finalizedHash = "0x".data ∨
      strHasSuf finalizedHash dcfZeroSuffix = true
  · rw [if_pos hcl]
    simp [hiff.mp hcl]
  · rw [if_neg hcl]
    have hnot : ¬(finalizedHash = "0x".data ∨
        ∃ p, finalizedHash = p ++ dcfZeroSuffix) :=
      fun hp => hcl (hiff.mpr hp)
    simp [hnot]

def demoAllZeroEnv : FinalityEnv :=
  ⟨.result allZero64Hash, fun _ => .result ()⟩

theorem finality_classification_spec_witness :
    (VerifyDCFFinality demoAllZeroEnv = .ok .warned ↔
      (allZero64Hash = "0x".data ∨ ∃ p, allZero64Hash = p ++ dcfZeroSuffix)) ∧
    (VerifyDCFFinality demoAllZeroEnv = .ok .passed ↔
      ¬(allZero64Hash = "0x".data ∨ ∃ p, allZero64Hash = p ++ dcfZeroSuffix)) :=
  finality_classification_spec demoAllZeroEnv allZero64Hash rfl rfl

/-- C6: over the startup path, every RPC failure inside the finality
check is swallowed: whenever the guard matches and `Initialize`
succeeds, `initCBCChain` returns success for every finality environment,
and when the finality check fails the failure is recorded only as the
logged warning. -/
theorem finality_failures_swallowed (networkNode : List Char) (dao : DaoEnv)
    (rvAttempts : Nat → RpcAttempt RuntimeVersion)
    (mdAttempts : Nat → RpcAttempt (List Char))
    (finEnv : FinalityEnv) (db : StoreState)
    (happ : cbcGuard (toLowerGo networkNode) = true)
    (hinit : (Initialize dao rvAttempts mdAttempts db).out = .ok ()) :
    (initCBCChain networkNode dao rvAttempts mdAttempts finEnv db).out =
      .ok () ∧
    (∀ e, VerifyDCFFinality finEnv = .error e →
      (initCBCChain networkNode dao rvAttempts mdAttempts finEnv
        db).finalityWarningLogged = true) := by
  constructor
  · cases hfin : VerifyDCFFinality finEnv with
    | error e => simp [initCBCChain, happ, hinit, hfin]
    | ok c => simp [initCBCChain, happ, hinit, hfin]
  · intro e he
    simp [initCBCChain, happ, hinit, he]

def demoFailHeadEnv : FinalityEnv :=
  ⟨.fail (.transport "conn".data), fun _ => .result ()⟩

theorem finality_failures_swallowed_witness :
    (initCBCChain "cbc".data demoDao demoRvFail demoMdFail demoFailHeadEnv
      demoStore).out = .ok () ∧
    (initCBCChain "cbc".data demoDao demoRvFail demoMdFail demoFailHeadEnv
      demoStore).finalityWarningLogged = true :=
  ⟨(finality_failures_swallowed "cbc".data demoDao demoRvFail demoMdFail
      demoFailHeadEnv demoStore (by decide) rfl).1,
    (finality_failures_swallowed "cbc".data demoDao demoRvFail demoMdFail
      demoFailHeadEnv demoStore (by decide) rfl).2
      (.wrapped .finHeadStep (.transport "conn".data)) rfl⟩

/-- C7: the coordinator is applicable exactly when the lowered network
identifier contains the substring `"cbc"`; for every non-matching
identifier, `initCBCChain` performs zero RPC calls and zero writes,
leaves the Store unchanged, and returns the not-applicable outcome that
the caller maps to the generic fallback initialization path. -/
theorem network_guard_spec (networkNode : List Char) (dao : DaoEnv)
    (rvAttempts : Nat → RpcAttempt RuntimeVersion)
    (mdAttempts : Nat → RpcAttempt (List Char))
    (finEnv : FinalityEnv) (db : StoreState) :
    (cbcGuard (toLowerGo networkNode) = true ↔
      strContains (toLowerGo networkNode) "cbc".data = true) ∧
    (strContains (toLowerGo networkNode) "cbc".data = false →
      initCBCChain networkNode dao rvAttempts mdAttempts finEnv db =
        ⟨.error .notCBCNetwork, 0, 0, 0, db, false⟩ ∧
      newServiceMetadataPath
        (initCBCChain networkNode dao rvAttempts mdAttempts finEnv db).out =
        .standardInit) := by
  have hg : ∀ l : List Char, cbcGuard l = true ↔ strContains l "cbc".data = true := by
    intro l
    unfold cbcGuard
    constructor
    · intro h
      simp only [Bool.or_eq_true, beq_iff_eq] at h
      rcases h with (h | h) | h
      · subst h
        decide
      · subst h
        decide
      · exact h
    · intro h
      simp [h]
  refine ⟨hg _, fun hnc => ?_⟩
  have hb : cbcGuard (toLowerGo networkNode) = false := by
    cases hbv : cbcGuard (toLowerGo networkNode) with
    | false => rfl
    | true => rw [(hg _).mp hbv] at hnc; exact Bool.noConfusion hnc
  have htr : initCBCChain networkNode dao rvAttempts mdAttempts finEnv db =
      ⟨.error .notCBCNetwork, 0, 0, 0, db, false⟩ := by
    simp [initCBCChain, hb]
  exact ⟨htr, by rw [htr]; rfl⟩

theorem network_guard_spec_witness :
    initCBCChain "polkadot".data demoDao demoRvFail demoMdFail demoFailHeadEnv
      demoStore = ⟨.error .notCBCNetwork, 0, 0, 0, demoStore, false⟩ ∧
    newServiceMetadataPath
      (initCBCChain "polkadot".data demoDao demoRvFail demoMdFail
        demoFailHeadEnv demoStore).out = .standardInit :=
  (network_guard_spec "polkadot".data demoDao demoRvFail demoMdFail
    demoFailHeadEnv demoStore).2 (by decide)

end Cbc
